import Mathlib

/-!
Verification of the spreadsheet-driven batch task-generation pipeline
(`app.py`): prompt catalog loading, row selection from the worksheet,
response parsing, the batch dispatch loop, and the cost estimator.

Python strings are modelled as `List Char` (`Str`); the empty list plays
the role of both the empty string and a missing (`None`) cell value, since
the code only ever tests cell values for truthiness.  openpyxl worksheets
are modelled as a header row plus a list of data rows; reading a cell with
a `None` column index (which raises `TypeError` in Python) is modelled by
`Except Unit` with `.error ()`.
-/

deriving instance DecidableEq for Except

namespace TaskGen

/-- Python strings, modelled as lists of characters. -/
abbrev Str := List Char

/-- Python `str.strip()`: remove leading and trailing whitespace. -/
def pyStrip (s : Str) : Str :=
  ((s.dropWhile Char.isWhitespace).reverse.dropWhile Char.isWhitespace).reverse

/-- Python `pat in s`: substring containment. -/
def pyContains (pat : Str) : Str → Bool
  | [] => pat.isEmpty
  | c :: rest => pat.isPrefixOf (c :: rest) || pyContains pat rest

/-- Worker for `pySplit`; the fuel starts at the length of the string, and
each step consumes at least one character, so the fuel never runs out for a
non-empty separator. -/
def pySplitGo (sep : Str) : Nat → Str → List Str
  | _, [] => [[]]
  | 0, s => [s]
  | fuel + 1, c :: rest =>
    if sep.isPrefixOf (c :: rest) then
      [] :: pySplitGo sep fuel (rest.drop (sep.length - 1))
    else
      match pySplitGo sep fuel rest with
      | [] => [[c]]
      | h :: t => (c :: h) :: t

/-- Python `s.split(sep)` for a non-empty separator `sep`. -/
def pySplit (sep s : Str) : List Str :=
  if sep.isEmpty then [s] else pySplitGo sep s.length s

/-- Python `s.replace(old, new)` for a non-empty `old`. -/
def pyReplace (old new s : Str) : Str :=
  List.intercalate new (pySplit old s)

/-- Python `dict.get` on an insertion-ordered association list. -/
def pyDictGet (d : List (Str × Str)) (k : Str) : Option Str :=
  match d with
  | [] => none
  | (k', v) :: rest => if k' = k then some v else pyDictGet rest k

/-- Python `dict` assignment: overwrite the value of an existing key in
place, otherwise append the new binding. -/
def pyDictInsert (d : List (Str × Str)) (k v : Str) : List (Str × Str) :=
  match d with
  | [] => [(k, v)]
  | (k', v') :: rest =>
    if k' = k then (k', v) :: rest else (k', v') :: pyDictInsert rest k v

/-- Loop of `load_prompts`: one csv row per iteration, carrying the dict
built so far.  A csv row is modelled as its two relevant fields
(the level column and the prompt column). -/
def loadPromptsLoop (acc : List (Str × Str)) : List (Str × Str) → List (Str × Str)
  | [] => acc
  | (lv, pt) :: rest =>
    let level := pyStrip lv
    let prompt_text := pyStrip pt
    if level ≠ [] ∧ prompt_text ≠ [] then
      loadPromptsLoop (pyDictInsert acc level prompt_text) rest
    else
      loadPromptsLoop acc rest

/-- `load_prompts` from app.py: build the level → prompt-template dict from
the rows of promts.csv, skipping rows where either field strips to empty. -/
def load_prompts (csvRows : List (Str × Str)) : List (Str × Str) :=
  loadPromptsLoop [] csvRows

/-- An openpyxl worksheet: the header row (row 1) and the data rows
(rows 2, 3, ...), each a list of cell values by column (1-based). -/
structure Sheet where
  header : List Str
  rows : List (List Str)
deriving DecidableEq

/-- The value of cell `(r, c)` for a known column index `c ≥ 1`; cells
beyond the stored width read as `None` (here `[]`). -/
def cellVal (r : List Str) (c : Nat) : Str := r.getD (c - 1) []

/-- `ws.cell(row, col).value` where `col` may be `None`: openpyxl raises a
`TypeError` when the column index is `None`. -/
def readCell (r : List Str) : Option Nat → Except Unit Str
  | some c => .ok (cellVal r c)
  | none => .error ()

/-- Worker for `colOf`, scanning columns left to right; a later column with
the same (stripped) header overwrites an earlier one, as dict assignment
does in the Python header-resolution loop. -/
def colOfAux (label : Str) : Nat → List Str → Option Nat
  | _, [] => none
  | c, v :: rest =>
    match colOfAux label (c + 1) rest with
    | some c' => some c'
    | none => if v ≠ [] ∧ pyStrip v = label then some c else none

/-- `headers.get(label)` after the header-resolution loop: the last column
whose truthy cell value strips to `label`. -/
def colOf (hdr : List Str) (label : Str) : Option Nat :=
  colOfAux label 1 hdr

def PROGRAM_LABEL : Str := "Образовательная программа".toList
def DISCIPLINE_LABEL : Str := "Дисциплина / модуль / практика".toList
def LEVEL_LABEL : Str := "Уровень сложности".toList
def TASK_LABEL : Str := "Задание".toList
def ANSWER_LABEL : Str := "Ключ (ответ)".toList

/-- One selected row, as appended to `tasks` in `get_tasks_from_excel`. -/
structure WorkItem where
  row : Nat
  program : Str
  discipline : Str
  level : Str
  prompt : Str
deriving DecidableEq

/-- `ws.cell(row, col_program).value if col_program else None`. -/
def progVal (cp : Option Nat) (r : List Str) : Str :=
  match cp with
  | some c => cellVal r c
  | none => []

/-- `if max_rows and len(tasks) >= max_rows` (Python truthiness: `None`
and `0` are both falsy). -/
def breakCond (maxR : Option Nat) (n : Nat) : Bool :=
  match maxR with
  | some m => m ≠ 0 && n ≥ m
  | none => false

/-- Row range of the no-filter branch:
`row_limit = min(max_rows + 2, ws.max_row + 1) if max_rows else ws.max_row + 1`,
i.e. the first `max_rows` data rows when `max_rows` is truthy. -/
def truncRows (maxR : Option Nat) (rows : List (List Str)) : List (List Str) :=
  match maxR with
  | some m => if m ≠ 0 then rows.take m else rows
  | none => rows

/-- The no-filter scan loop of `get_tasks_from_excel`, over the (already
truncated) data rows, numbering rows from `idx`. -/
def scanNoFilter (prompts : List (Str × Str)) (cp cd cl ct : Option Nat) :
    Nat → List (List Str) → Except Unit (List WorkItem)
  | _, [] => .ok []
  | idx, r :: rest => do
    let program := progVal cp r
    let discipline ← readCell r cd
    let level ← readCell r cl
    let current_task ← readCell r ct
    let rest' ← scanNoFilter prompts cp cd cl ct (idx + 1) rest
    if discipline ≠ [] ∧ level ≠ [] ∧ current_task = [] then
      match pyDictGet prompts level with
      | some tmpl =>
        if tmpl ≠ [] then
          pure (⟨idx, program, discipline, level, tmpl⟩ :: rest')
        else
          pure rest'
      | none => pure rest'
    else
      pure rest'

/-- The filter-branch scan loop of `get_tasks_from_excel`: scan every data
row, skip rows whose normalized program differs from the normalized filter,
and stop once `max_rows` items have been collected (`cnt` counts the items
collected so far; the list returned is the remainder from this row on). -/
def scanFilter (prompts : List (Str × Str)) (cp cd cl ct : Option Nat)
    (f : Str) (maxR : Option Nat) :
    Nat → Nat → List (List Str) → Except Unit (List WorkItem)
  | _, _, [] => .ok []
  | cnt, idx, r :: rest => do
    let program := progVal cp r
    let discipline ← readCell r cd
    let level ← readCell r cl
    let current_task ← readCell r ct
    let program_normalized : Option Str :=
      if program ≠ [] then some (pyStrip program) else none
    let filter_normalized : Option Str :=
      if f ≠ [] then some (pyStrip f) else none
    if program_normalized ≠ filter_normalized then
      scanFilter prompts cp cd cl ct f maxR cnt (idx + 1) rest
    else if discipline ≠ [] ∧ level ≠ [] ∧ current_task = [] then
      match pyDictGet prompts level with
      | some tmpl =>
        if tmpl ≠ [] then
          if breakCond maxR (cnt + 1) then
            pure [⟨idx, program, discipline, level, tmpl⟩]
          else do
            let rest' ← scanFilter prompts cp cd cl ct f maxR (cnt + 1) (idx + 1) rest
            pure (⟨idx, program, discipline, level, tmpl⟩ :: rest')
        else
          scanFilter prompts cp cd cl ct f maxR cnt (idx + 1) rest
      | none => scanFilter prompts cp cd cl ct f maxR cnt (idx + 1) rest
    else
      scanFilter prompts cp cd cl ct f maxR cnt (idx + 1) rest

/-- `get_tasks_from_excel(wb, max_rows, filter_program)`: resolve the five
columns from the header row, then run the filter branch (when
`filter_program` is truthy) or the no-filter branch.  The prompt catalog is
loaded from the csv rows, as `load_prompts()` is called inside the
function.  Returns the selected work items together with
`(col_task, col_answer)`. -/
def get_tasks_from_excel (ws : Sheet) (csvRows : List (Str × Str))
    (max_rows : Option Nat) (filter_program : Option Str) :
    Except Unit (List WorkItem × (Option Nat × Option Nat)) :=
  let cp := colOf ws.header PROGRAM_LABEL
  let cd := colOf ws.header DISCIPLINE_LABEL
  let cl := colOf ws.header LEVEL_LABEL
  let ct := colOf ws.header TASK_LABEL
  let ca := colOf ws.header ANSWER_LABEL
  let prompts := load_prompts csvRows
  match filter_program with
  | some f =>
    if f ≠ [] then do
      let tasks ← scanFilter prompts cp cd cl ct f max_rows 0 2 ws.rows
      pure (tasks, (ct, ca))
    else do
      let tasks ← scanNoFilter prompts cp cd cl ct 2 (truncRows max_rows ws.rows)
      pure (tasks, (ct, ca))
  | none => do
    let tasks ← scanNoFilter prompts cp cd cl ct 2 (truncRows max_rows ws.rows)
    pure (tasks, (ct, ca))

/-- The counting loop of `count_total_tasks`, over all data rows. -/
def countLoop (prompts : List (Str × Str)) (cd cl ct : Option Nat) :
    List (List Str) → Except Unit Nat
  | [] => .ok 0
  | r :: rest => do
    let discipline ← readCell r cd
    let level ← readCell r cl
    let current_task ← readCell r ct
    let n ← countLoop prompts cd cl ct rest
    if discipline ≠ [] ∧ level ≠ [] ∧ current_task = [] then
      match pyDictGet prompts level with
      | some tmpl => if tmpl ≠ [] then pure (n + 1) else pure n
      | none => pure n
    else
      pure n

/-- `count_total_tasks(wb)`: count the eligible rows of the whole file. -/
def count_total_tasks (ws : Sheet) (csvRows : List (Str × Str)) : Except Unit Nat :=
  let cd := colOf ws.header DISCIPLINE_LABEL
  let cl := colOf ws.header LEVEL_LABEL
  let ct := colOf ws.header TASK_LABEL
  let prompts := load_prompts csvRows
  countLoop prompts cd cl ct ws.rows

/-! ### Response parsing and the generation adapter -/

/-- The outcome triple `(task_text, answer_text, error)` of one generation
attempt; `parse_response` returns plain strings with a `None` error, the
exception path returns `(None, None, str(e))`. -/
abbrev GenOut := Option Str × Option Str × Option Str

def TASK_MARK : Str := "ЗАДАНИЕ:".toList
def KEY_MARK : Str := "КЛЮЧ (ОТВЕТ):".toList
def ANS_MARK : Str := "ОТВЕТ:".toList

/-- `parse_response(response_text)` from app.py: split on the key marker,
fall back to the plain answer marker, and finally to an even split of the
lines. -/
def parse_response (response_text : Str) : GenOut :=
  if pyContains TASK_MARK response_text ∧ pyContains KEY_MARK response_text then
    let parts := pySplit KEY_MARK response_text
    let task := pyStrip (pyReplace TASK_MARK [] (parts.headD []))
    let answer := pyStrip (parts.getD 1 [])
    (some task, some answer, none)
  else if pyContains TASK_MARK response_text ∧ pyContains ANS_MARK response_text then
    let parts := pySplit ANS_MARK response_text
    let task := pyStrip (pyReplace TASK_MARK [] (parts.headD []))
    let answer := pyStrip (parts.getD 1 [])
    (some task, some answer, none)
  else
    let lines := pySplit ['\n'] (pyStrip response_text)
    let mid := lines.length / 2
    let task := pyStrip (List.intercalate ['\n'] (lines.take mid))
    let answer := pyStrip (List.intercalate ['\n'] (lines.drop mid))
    (some task, some answer, none)

/-- The fixed instruction block appended between the template/discipline
and the end of the request in every `generate_*` function. -/
def PROMPT_MID : Str := "\n\nДисциплина/модуль/практика: ".toList

def PROMPT_TAIL : Str :=
  ("\n\nСгенерируй задание и ответ к нему в следующем формате:\n\nЗАДАНИЕ:\n[текст задания]\n\nКЛЮЧ (ОТВЕТ):\n[правильный ответ]\n\nВажно: отвечай только на русском языке.").toList

/-- The `full_prompt` f-string shared by all seven `generate_*` variants. -/
def buildFullPrompt (prompt_template discipline : Str) : Str :=
  prompt_template ++ PROMPT_MID ++ discipline ++ PROMPT_TAIL

/-- `response_text = ""` followed by `response_text += item` over the
streamed output chunks. -/
def concatChunks (chunks : List Str) : Str :=
  chunks.foldl (· ++ ·) []

/-- `generate_deepseek(discipline, level, prompt_template)`: the external
`replicate.run` call is modelled by `api`, a function from the request
prompt to either the streamed output chunks or the text of the raised
exception.  On success the concatenated response is parsed; a raised
exception yields `(None, None, str(e))`.  The other six `generate_*`
functions differ only in the model identifier and request parameters
passed to the external call. -/
def generate_deepseek (discipline _level prompt_template : Str)
    (api : Str → Except Str (List Str)) : GenOut :=
  match api (buildFullPrompt prompt_template discipline) with
  | .error e => (none, none, some e)
  | .ok chunks => parse_response (concatChunks chunks)

/-- Python truthiness of an optional string: `None` and `""` are falsy. -/
def truthyO : Option Str → Bool
  | some s => s ≠ []
  | none => false

/-- The success branch of the Result invariant: task and answer both
non-empty. -/
def successOutcome (o : GenOut) : Bool := truthyO o.1 && truthyO o.2.1

/-- The error branch of the Result invariant: error non-empty. -/
def errorOutcome (o : GenOut) : Bool := truthyO o.2.2

/-! ### Cost estimator -/

/-- The seven known model keys of `MODEL_COSTS` / `MODEL_TIME_PER_TASK`. -/
inductive ModelKey where
  | deepseek | claude | gpt4o | llama | gemini_flash | gpt51 | kimi
deriving DecidableEq

/-- `MODEL_COSTS`: per-task cost in USD.  The Python float literals are
exact decimals, modelled as rationals. -/
def MODEL_COSTS : ModelKey → ℚ
  | .deepseek => 0.0002
  | .claude => 0.005
  | .gpt4o => 0.004
  | .llama => 0.002
  | .gemini_flash => 0.004
  | .gpt51 => 0.018
  | .kimi => 0.0038

/-- `calculate_cost(num_tasks, model_key, usd_rub_rate)`. -/
def calculate_cost (num_tasks : Nat) (model_key : ModelKey) (usd_rub_rate : ℚ) : ℚ × ℚ :=
  let cost_usd := (num_tasks : ℚ) * MODEL_COSTS model_key
  let cost_rub := cost_usd * usd_rub_rate
  (cost_usd, cost_rub)

/-! ### Batch dispatcher -/

/-- One generate call for one work item: either the returned triple, or the
text of а raised exception (re-raised by `future.result()`). -/
abbrev GenFn := WorkItem → Except Str GenOut

/-- Whether one item's own generate call yields a result the dispatcher
accepts (`if task_text and answer_text`). -/
def itemSuccess (gen : GenFn) (t : WorkItem) : Bool :=
  match gen t with
  | .error _ => false
  | .ok (tt, aa, _) => truthyO tt && truthyO aa

/-- The completion loop of the batch run: each completed item either
appends to `results` (counted here) or increments `errors`; a raised
exception is caught and counted as an error.  The list argument is the
completion order, which `as_completed` makes an arbitrary permutation of
the submitted items. -/
def runBatch (gen : GenFn) : List WorkItem → Nat × Nat
  | [] => (0, 0)
  | t :: rest =>
    let p := runBatch gen rest
    match gen t with
    | .error _ => (p.1, p.2 + 1)
    | .ok (tt, aa, _) =>
      if truthyO tt && truthyO aa then (p.1 + 1, p.2) else (p.1, p.2 + 1)

/-! ### Characterizations of the selector used in the theorem statements -/

/-- Eligibility of a data row, exactly the guard of the selector loops:
non-empty discipline, non-empty level, empty task cell, and a truthy prompt
template for the level. -/
def eligRow (prompts : List (Str × Str)) (cd cl ct : Nat) (r : List Str) : Bool :=
  decide (cellVal r cd ≠ [] ∧ cellVal r cl ≠ [] ∧ cellVal r ct = []) &&
    (match pyDictGet prompts (cellVal r cl) with
     | some tmpl => decide (tmpl ≠ [])
     | none => false)

/-- The work item the selector builds for an eligible row. -/
def mkItem (prompts : List (Str × Str)) (cp : Option Nat) (cd cl : Nat)
    (idx : Nat) (r : List Str) : WorkItem :=
  ⟨idx, progVal cp r, cellVal r cd, cellVal r cl,
    (pyDictGet prompts (cellVal r cl)).getD []⟩

/-- The full, unbounded list of work items of the no-filter scan: one item
per eligible row, in row order. -/
def eligItems (prompts : List (Str × Str)) (cp : Option Nat) (cd cl ct : Nat) :
    Nat → List (List Str) → List WorkItem
  | _, [] => []
  | idx, r :: rest =>
    if eligRow prompts cd cl ct r then
      mkItem prompts cp cd cl idx r :: eligItems prompts cp cd cl ct (idx + 1) rest
    else
      eligItems prompts cp cd cl ct (idx + 1) rest

/-- Whether a row's program matches the filter after normalization
(both sides stripped; empty/missing program compares as `None`). -/
def matchesFilter (cp : Option Nat) (f : Str) (r : List Str) : Bool :=
  decide ((if progVal cp r ≠ [] then some (pyStrip (progVal cp r)) else none) =
    (if f ≠ [] then some (pyStrip f) else none))

/-- The full, unbounded list of work items of the filter scan: one item per
eligible row matching the program filter, in row order. -/
def filtItems (prompts : List (Str × Str)) (cp : Option Nat) (cd cl ct : Nat)
    (f : Str) : Nat → List (List Str) → List WorkItem
  | _, [] => []
  | idx, r :: rest =>
    if matchesFilter cp f r ∧ eligRow prompts cd cl ct r then
      mkItem prompts cp cd cl idx r :: filtItems prompts cp cd cl ct f (idx + 1) rest
    else
      filtItems prompts cp cd cl ct f (idx + 1) rest

/-! ### Concrete fixtures for witnesses and counterexamples -/

/-- A one-row prompt catalog csv. -/
def fxCsv : List (Str × Str) := [("Лёгкий".toList, "Сгенерируй простое задание".toList)]

/-- Header with the three required columns (discipline, level, task). -/
def HDR3 : List Str :=
  ["Дисциплина / модуль / практика".toList, "Уровень сложности".toList, "Задание".toList]

/-- An eligible data row: discipline and level filled, task cell empty. -/
def rowElig : List Str := ["Математика".toList, "Лёгкий".toList, []]

/-- An ineligible data row: its task cell is already filled. -/
def rowFilled : List Str := ["Математика".toList, "Лёгкий".toList, "готово".toList]

def fxSheetA : Sheet := ⟨HDR3, [rowElig]⟩

/-- First data row ineligible, second eligible. -/
def fxSheetC : Sheet := ⟨HDR3, [rowFilled, rowElig]⟩

/-- First data row eligible, second ineligible. -/
def fxSheetB : Sheet := ⟨HDR3, [rowElig, rowFilled]⟩

/-- Header with the program column in front of the three required ones. -/
def HDR4 : List Str := "Образовательная программа".toList :: HDR3

/-- An eligible data row tagged with program value `p`. -/
def rowProg (p : Str) : List Str := p :: rowElig

/-- Two eligible rows of the same program, one with surrounding spaces. -/
def fxSheetP : Sheet := ⟨HDR4, [rowProg " П1 ".toList, rowProg "П1".toList]⟩

/-- Header missing the discipline column. -/
def fxSheet7 : Sheet :=
  ⟨["Уровень сложности".toList, "Задание".toList], [["Лёгкий".toList, []]]⟩

/-- Header missing the level column. -/
def fxSheet7b : Sheet :=
  ⟨["Дисциплина / модуль / практика".toList, "Задание".toList], [["Математика".toList, []]]⟩

def wiA : WorkItem := ⟨2, [], "Математика".toList, "Лёгкий".toList, "П".toList⟩

def wiB : WorkItem := ⟨3, [], "Физика".toList, "Лёгкий".toList, "П".toList⟩

/-- A generate function that raises for `wiA` and succeeds otherwise. -/
def genW : GenFn := fun t =>
  if t = wiA then .error "boom".toList
  else .ok (some "з".toList, some "о".toList, none)

/-! ### Helper lemmas -/

theorem ok_bind {α β : Type} {ε : Type} (a : α) (k : α → Except ε β) :
    (Except.ok a >>= k) = k a := rfl

theorem error_bind {α β : Type} {ε : Type} (e : ε) (k : α → Except ε β) :
    ((Except.error e : Except ε α) >>= k) = Except.error e := rfl

theorem pure_eq_ok {α ε : Type} (a : α) : (pure a : Except ε α) = Except.ok a := rfl

theorem readCell_some (r : List Str) (c : Nat) :
    readCell r (some c) = .ok (cellVal r c) := rfl

theorem pyDictInsert_mem {d : List (Str × Str)} {k v : Str} {p : Str × Str}
    (hp : p ∈ pyDictInsert d k v) : p ∈ d ∨ p = (k, v) := by
  induction d with
  | nil => simpa [pyDictInsert] using hp
  | cons q rest ih =>
    by_cases hk : q.1 = k
    · rcases q with ⟨k', v'⟩
      simp only [pyDictInsert, if_pos hk] at hp
      rcases List.mem_cons.mp hp with h | h
      · right; rw [h]; simp only [Prod.mk.injEq]; exact ⟨hk, trivial⟩
      · left; exact List.mem_cons_of_mem _ h
    · rcases q with ⟨k', v'⟩
      simp only [pyDictInsert, if_neg hk] at hp
      rcases List.mem_cons.mp hp with h | h
      · left; exact h ▸ List.mem_cons_self _ _
      · rcases ih h with h' | h'
        · left; exact List.mem_cons_of_mem _ h'
        · right; exact h'

theorem loadPromptsLoop_mem {csv acc : List (Str × Str)}
    (hacc : ∀ p ∈ acc, p.1 ≠ [] ∧ p.2 ≠ []) :
    ∀ p ∈ loadPromptsLoop acc csv, p.1 ≠ [] ∧ p.2 ≠ [] := by
  induction csv generalizing acc with
  | nil => simpa [loadPromptsLoop] using hacc
  | cons q rest ih =>
    rcases q with ⟨lv, pt⟩
    by_cases h : pyStrip lv ≠ [] ∧ pyStrip pt ≠ []
    · simp only [loadPromptsLoop, if_pos h]
      refine ih ?_
      intro p hp
      rcases pyDictInsert_mem hp with h' | h'
      · exact hacc p h'
      · rw [h']; exact h
    · simp only [loadPromptsLoop, if_neg h]
      exact ih hacc

theorem load_prompts_mem {csv : List (Str × Str)} :
    ∀ p ∈ load_prompts csv, p.1 ≠ [] ∧ p.2 ≠ [] :=
  loadPromptsLoop_mem (by intro p hp; simp at hp)

theorem pyDictGet_mem {d : List (Str × Str)} {k v : Str}
    (h : pyDictGet d k = some v) : (k, v) ∈ d := by
  induction d with
  | nil => simp [pyDictGet] at h
  | cons q rest ih =>
    rcases q with ⟨k', v'⟩
    by_cases hk : k' = k
    · simp only [pyDictGet, if_pos hk] at h
      cases h
      rw [← hk]
      exact List.mem_cons_self _ _
    · simp only [pyDictGet, if_neg hk] at h
      exact List.mem_cons_of_mem _ (ih h)

/-- Any value found in a loaded prompt catalog is non-empty. -/
theorem load_prompts_get_ne {csv : List (Str × Str)} {k v : Str}
    (h : pyDictGet (load_prompts csv) k = some v) : v ≠ [] :=
  (load_prompts_mem _ (pyDictGet_mem h)).2

/-- The no-filter scan with all three required columns resolved never
fails and returns exactly the eligible items. -/
theorem scanNoFilter_ok (prompts : List (Str × Str)) (cp : Option Nat) (cd cl ct : Nat)
    (rows : List (List Str)) : ∀ (idx : Nat),
    scanNoFilter prompts cp (some cd) (some cl) (some ct) idx rows =
      .ok (eligItems prompts cp cd cl ct idx rows) := by
  induction rows with
  | nil => intro idx; rfl
  | cons r rest ih =>
    intro idx
    simp only [scanNoFilter, readCell_some, ok_bind, ih, eligItems]
    by_cases h : cellVal r cd ≠ [] ∧ cellVal r cl ≠ [] ∧ cellVal r ct = []
    · cases hget : pyDictGet prompts (cellVal r cl) with
      | none => simp [h, hget, eligRow, pure_eq_ok]
      | some tmpl =>
        by_cases ht : tmpl = []
        · simp [h, hget, ht, eligRow, pure_eq_ok]
        · simp [h, hget, ht, eligRow, mkItem, pure_eq_ok]
    · simp [h, eligRow, pure_eq_ok]

/-- Membership in the eligible-item list, by row position. -/
theorem eligItems_mem (prompts : List (Str × Str)) (cp : Option Nat) (cd cl ct : Nat)
    (rows : List (List Str)) : ∀ (idx : Nat) (it : WorkItem),
    it ∈ eligItems prompts cp cd cl ct idx rows ↔
      ∃ i, i < rows.length ∧ eligRow prompts cd cl ct (rows.getD i []) = true ∧
        it = mkItem prompts cp cd cl (idx + i) (rows.getD i []) := by
  induction rows with
  | nil => intro idx it; simp [eligItems]
  | cons r rest ih =>
    intro idx it
    by_cases h : eligRow prompts cd cl ct r = true
    · simp only [eligItems, if_pos h, List.mem_cons, ih]
      constructor
      · rintro (h' | ⟨i, hi, he, hit⟩)
        · exact ⟨0, by simp, by simpa using h, by simpa using h'⟩
        · exact ⟨i + 1, by simpa using hi, by simpa using he, by
            simpa [Nat.add_assoc, Nat.add_comm 1 i] using hit⟩
      · rintro ⟨i, hi, he, hit⟩
        cases i with
        | zero => left; simpa using hit
        | succ j =>
          right
          exact ⟨j, by simpa using hi, by simpa using he, by
            simpa [Nat.add_assoc, Nat.add_comm 1 j] using hit⟩
    · simp only [eligItems, if_neg h, ih]
      constructor
      · rintro ⟨i, hi, he, hit⟩
        exact ⟨i + 1, by simpa using hi, by simpa using he, by
          simpa [Nat.add_assoc, Nat.add_comm 1 i] using hit⟩
      · rintro ⟨i, hi, he, hit⟩
        cases i with
        | zero => exact absurd (by simpa using he) h
        | succ j =>
          exact ⟨j, by simpa using hi, by simpa using he, by
            simpa [Nat.add_assoc, Nat.add_comm 1 j] using hit⟩

/-- The eligible-item list counts exactly the eligible rows. -/
theorem eligItems_length (prompts : List (Str × Str)) (cp : Option Nat) (cd cl ct : Nat)
    (rows : List (List Str)) : ∀ (idx : Nat),
    (eligItems prompts cp cd cl ct idx rows).length =
      rows.countP (eligRow prompts cd cl ct) := by
  induction rows with
  | nil => intro idx; rfl
  | cons r rest ih =>
    intro idx
    by_cases h : eligRow prompts cd cl ct r = true
    · simp [eligItems, if_pos h, ih, List.countP_cons, h]
    · simp [eligItems, if_neg h, ih, List.countP_cons,
        Bool.not_eq_true _ ▸ h]

/-- The standalone counting loop computes the length of the no-filter
scan's result, including agreement on the error case. -/
theorem countLoop_eq_scan (prompts : List (Str × Str)) (cp cd cl ct : Option Nat)
    (rows : List (List Str)) : ∀ (idx : Nat),
    countLoop prompts cd cl ct rows =
      (scanNoFilter prompts cp cd cl ct idx rows).map List.length := by
  induction rows with
  | nil => intro idx; rfl
  | cons r rest ih =>
    intro idx
    cases cd with
    | none => rfl
    | some cdv =>
      cases cl with
      | none => rfl
      | some clv =>
        cases ct with
        | none => rfl
        | some ctv =>
          simp only [countLoop, scanNoFilter, readCell_some, ok_bind]
          cases hrec : scanNoFilter prompts cp (some cdv) (some clv) (some ctv) (idx + 1) rest with
          | error e =>
            rw [ih (idx + 1), hrec]
            cases e
            by_cases h : cellVal r cdv ≠ [] ∧ cellVal r clv ≠ [] ∧ cellVal r ctv = []
            · cases hget : pyDictGet prompts (cellVal r clv) with
              | none => simp [h, hget, error_bind, Except.map]
              | some tmpl =>
                by_cases ht : tmpl = [] <;> simp [h, hget, ht, error_bind, Except.map]
            · simp [h, error_bind, Except.map]
          | ok l =>
            rw [ih (idx + 1), hrec]
            by_cases h : cellVal r cdv ≠ [] ∧ cellVal r clv ≠ [] ∧ cellVal r ctv = []
            · cases hget : pyDictGet prompts (cellVal r clv) with
              | none => simp [h, hget, ok_bind, Except.map, pure_eq_ok]
              | some tmpl =>
                by_cases ht : tmpl = [] <;>
                  simp [h, hget, ht, ok_bind, Except.map, pure_eq_ok]
            · simp [h, ok_bind, Except.map, pure_eq_ok]

/-- The filter scan with a truthy limit `m` returns the first `m - cnt`
of the unbounded filtered eligible list, never failing when the three
required columns are resolved. -/
theorem scanFilter_take (prompts : List (Str × Str)) (cp : Option Nat) (cd cl ct : Nat)
    (f : Str) (m : Nat) (rows : List (List Str)) : ∀ (idx cnt : Nat), cnt < m →
    scanFilter prompts cp (some cd) (some cl) (some ct) f (some m) cnt idx rows =
      .ok ((filtItems prompts cp cd cl ct f idx rows).take (m - cnt)) := by
  induction rows with
  | nil => intro idx cnt _; simp [scanFilter, filtItems]
  | cons r rest ih =>
    intro idx cnt hcnt
    simp only [scanFilter, readCell_some, ok_bind]
    by_cases hmatch : matchesFilter cp f r = true
    · have hmeq : ((if progVal cp r ≠ [] then some (pyStrip (progVal cp r)) else none) =
          (if f ≠ [] then some (pyStrip f) else none)) := by
        simpa [matchesFilter] using hmatch
      rw [if_neg (by simpa using hmeq)]
      by_cases h : cellVal r cd ≠ [] ∧ cellVal r cl ≠ [] ∧ cellVal r ct = []
      · cases hget : pyDictGet prompts (cellVal r cl) with
        | none =>
          rw [if_pos h]
          have helig : eligRow prompts cd cl ct r = false := by
            simp [eligRow, hget]
          simp [filtItems, helig, ih _ cnt hcnt]
        | some tmpl =>
          by_cases ht : tmpl = []
          · rw [if_pos h]
            have helig : eligRow prompts cd cl ct r = false := by
              simp [eligRow, hget, ht]
            simp [filtItems, helig, ht, ih _ cnt hcnt]
          · rw [if_pos h]
            have helig : eligRow prompts cd cl ct r = true := by
              simp [eligRow, hget, ht, h]
            by_cases hbreak : cnt + 1 ≥ m
            · have hbk : breakCond (some m) (cnt + 1) = true := by
                simp [breakCond]
                omega
              have htake : m - cnt = 1 := by omega
              simp [filtItems, hmatch, helig, ht, hbk, htake, mkItem, hget, pure_eq_ok]
            · have hbk : breakCond (some m) (cnt + 1) = false := by
                simp [breakCond]
                omega
              have htake : m - cnt = (m - (cnt + 1)) + 1 := by omega
              simp [filtItems, hmatch, helig, ht, hbk, htake, mkItem, hget, pure_eq_ok,
                ok_bind, ih (idx + 1) (cnt + 1) (by omega)]
      · rw [if_neg h]
        have helig : eligRow prompts cd cl ct r = false := by
          simp only [eligRow]
          rw [decide_eq_false h]
          simp
        simp [filtItems, helig, ih _ cnt hcnt]
    · have hmeq : ¬ ((if progVal cp r ≠ [] then some (pyStrip (progVal cp r)) else none) =
          (if f ≠ [] then some (pyStrip f) else none)) := by
        simpa [matchesFilter] using hmatch
      rw [if_pos (by simpa using hmeq)]
      simp [filtItems, hmatch, ih _ cnt hcnt]

/-- A row that passes the normalized program comparison against a truthy
filter has a truthy program cell stripping to the stripped filter. -/
theorem matchesFilter_program {cp : Option Nat} {f : Str} {r : List Str}
    (hm : matchesFilter cp f r = true) (hf : f ≠ []) :
    progVal cp r ≠ [] ∧ pyStrip (progVal cp r) = pyStrip f := by
  have hmeq := of_decide_eq_true hm
  rw [if_pos hf] at hmeq
  by_cases hp : progVal cp r = []
  · rw [if_neg (not_not_intro hp)] at hmeq
    exact absurd hmeq (by simp)
  · rw [if_pos hp] at hmeq
    exact ⟨hp, Option.some.inj hmeq⟩

/-- Every item of the filtered eligible list carries the program value of
a row matching the filter. -/
theorem filtItems_program (prompts : List (Str × Str)) (cp : Option Nat)
    (cd cl ct : Nat) {f : Str} (hf : f ≠ []) (rows : List (List Str)) :
    ∀ (idx : Nat) (it : WorkItem), it ∈ filtItems prompts cp cd cl ct f idx rows →
      it.program ≠ [] ∧ pyStrip it.program = pyStrip f := by
  induction rows with
  | nil => intro idx it h; simp [filtItems] at h
  | cons r rest ih =>
    intro idx it hit
    by_cases hc : matchesFilter cp f r = true ∧ eligRow prompts cd cl ct r = true
    · rw [filtItems, if_pos (by simpa using hc)] at hit
      rcases List.mem_cons.mp hit with h | h
      · have := matchesFilter_program hc.1 hf
        rw [h]
        simpa [mkItem] using this
      · exact ih (idx + 1) it h
    · rw [filtItems, if_neg (by simpa using hc)] at hit
      exact ih (idx + 1) it hit

/-- Rows of items of the filtered eligible list are at least the start
index. -/
theorem filtItems_row_ge (prompts : List (Str × Str)) (cp : Option Nat)
    (cd cl ct : Nat) (f : Str) (rows : List (List Str)) :
    ∀ (idx : Nat) (it : WorkItem), it ∈ filtItems prompts cp cd cl ct f idx rows →
      idx ≤ it.row := by
  induction rows with
  | nil => intro idx it h; simp [filtItems] at h
  | cons r rest ih =>
    intro idx it hit
    by_cases hc : matchesFilter cp f r = true ∧ eligRow prompts cd cl ct r = true
    · rw [filtItems, if_pos (by simpa using hc)] at hit
      rcases List.mem_cons.mp hit with h | h
      · rw [h]; simp [mkItem]
      · exact Nat.le_of_succ_le (ih (idx + 1) it h)
    · rw [filtItems, if_neg (by simpa using hc)] at hit
      exact Nat.le_of_succ_le (ih (idx + 1) it hit)

/-- The filtered eligible list is in strictly increasing row order. -/
theorem filtItems_pairwise (prompts : List (Str × Str)) (cp : Option Nat)
    (cd cl ct : Nat) (f : Str) (rows : List (List Str)) :
    ∀ (idx : Nat),
      List.Pairwise (fun a b => a.row < b.row) (filtItems prompts cp cd cl ct f idx rows) := by
  induction rows with
  | nil => intro idx; simp [filtItems]
  | cons r rest ih =>
    intro idx
    by_cases hc : matchesFilter cp f r = true ∧ eligRow prompts cd cl ct r = true
    · rw [filtItems, if_pos (by simpa using hc)]
      refine List.Pairwise.cons ?_ (ih (idx + 1))
      intro b hb
      have := filtItems_row_ge prompts cp cd cl ct f rest (idx + 1) b hb
      simp only [mkItem]
      omega
    · rw [filtItems, if_neg (by simpa using hc)]
      exact ih (idx + 1)

/-- The parser always returns a `(some task, some answer, none)` triple,
whichever split succeeds. -/
theorem parse_response_shape (s : Str) :
    ∃ t a, parse_response s = (some t, some a, none) := by
  unfold parse_response
  split_ifs <;> exact ⟨_, _, rfl⟩

/-- With a required column unresolved, the no-filter scan fails on its
first row. -/
theorem scanNoFilter_error (prompts : List (Str × Str)) (cp : Option Nat)
    (cd cl ct : Option Nat) (hmiss : cd = none ∨ cl = none ∨ ct = none)
    (idx : Nat) (r : List Str) (rest : List (List Str)) :
    scanNoFilter prompts cp cd cl ct idx (r :: rest) = .error () := by
  rcases hmiss with h | h | h
  · subst h; rfl
  · subst h
    cases cd with
    | none => rfl
    | some c => rfl
  · subst h
    cases cd with
    | none => rfl
    | some c =>
      cases cl with
      | none => rfl
      | some c' => rfl

/-- With a required column unresolved, the filter scan fails on its first
row: the cells are read before the program filter is applied. -/
theorem scanFilter_error (prompts : List (Str × Str)) (cp : Option Nat)
    (cd cl ct : Option Nat) (f : Str) (maxR : Option Nat)
    (hmiss : cd = none ∨ cl = none ∨ ct = none)
    (cnt idx : Nat) (r : List Str) (rest : List (List Str)) :
    scanFilter prompts cp cd cl ct f maxR cnt idx (r :: rest) = .error () := by
  rcases hmiss with h | h | h
  · subst h; rfl
  · subst h
    cases cd with
    | none => rfl
    | some c => rfl
  · subst h
    cases cd with
    | none => rfl
    | some c =>
      cases cl with
      | none => rfl
      | some c' => rfl

/-- Truncating a non-empty row list keeps its first row. -/
theorem truncRows_cons (maxR : Option Nat) (r : List Str) (rest : List (List Str)) :
    ∃ rest', truncRows maxR (r :: rest) = r :: rest' := by
  cases maxR with
  | none => exact ⟨rest, rfl⟩
  | some m =>
    cases m with
    | zero => exact ⟨rest, by simp [truncRows]⟩
    | succ k => exact ⟨rest.take k, by simp [truncRows]⟩

/-- Every item returned by the no-filter scan has a non-empty prompt
template, thanks to the `if prompt_template` guard. -/
theorem scanNoFilter_prompt (prompts : List (Str × Str)) (cp cd cl ct : Option Nat)
    (rows : List (List Str)) : ∀ (idx : Nat) (l : List WorkItem),
    scanNoFilter prompts cp cd cl ct idx rows = .ok l → ∀ it ∈ l, it.prompt ≠ [] := by
  induction rows with
  | nil =>
    intro idx l h it hit
    simp only [scanNoFilter] at h
    cases h
    simp at hit
  | cons r rest ih =>
    intro idx l h it hit
    simp only [scanNoFilter] at h
    cases hcd : readCell r cd with
    | error e => rw [hcd, error_bind] at h; cases h
    | ok d =>
      rw [hcd, ok_bind] at h
      cases hcl : readCell r cl with
      | error e => rw [hcl, error_bind] at h; cases h
      | ok lv =>
        rw [hcl, ok_bind] at h
        cases hct : readCell r ct with
        | error e => rw [hct, error_bind] at h; cases h
        | ok tk =>
          rw [hct, ok_bind] at h
          cases hrec : scanNoFilter prompts cp cd cl ct (idx + 1) rest with
          | error e => rw [hrec, error_bind] at h; cases h
          | ok l' =>
            rw [hrec, ok_bind] at h
            have ihl' := ih (idx + 1) l' hrec
            by_cases hcond : d ≠ [] ∧ lv ≠ [] ∧ tk = []
            · rw [if_pos hcond] at h
              cases hget : pyDictGet prompts lv with
              | none =>
                rw [hget] at h
                simp only [pure_eq_ok, Except.ok.injEq] at h
                subst h
                exact ihl' it hit
              | some tmpl =>
                rw [hget] at h
                by_cases ht : tmpl = []
                · simp only [ht, ne_eq, not_true_eq_false, if_false, ite_false,
                    pure_eq_ok, Except.ok.injEq] at h
                  subst h
                  exact ihl' it hit
                · simp only [ne_eq, ht, not_false_eq_true, if_true, ite_true,
                    pure_eq_ok, Except.ok.injEq] at h
                  subst h
                  rcases List.mem_cons.mp hit with h' | h'
                  · rw [h']; exact ht
                  · exact ihl' it h'
            · rw [if_neg hcond] at h
              simp only [pure_eq_ok, Except.ok.injEq] at h
              subst h
              exact ihl' it hit

/-- Every item returned by the filter scan has a non-empty prompt
template. -/
theorem scanFilter_prompt (prompts : List (Str × Str)) (cp cd cl ct : Option Nat)
    (f : Str) (maxR : Option Nat) (rows : List (List Str)) :
    ∀ (cnt idx : Nat) (l : List WorkItem),
    scanFilter prompts cp cd cl ct f maxR cnt idx rows = .ok l →
      ∀ it ∈ l, it.prompt ≠ [] := by
  induction rows with
  | nil =>
    intro cnt idx l h it hit
    simp only [scanFilter] at h
    cases h
    simp at hit
  | cons r rest ih =>
    intro cnt idx l h it hit
    simp only [scanFilter] at h
    cases hcd : readCell r cd with
    | error e => rw [hcd, error_bind] at h; cases h
    | ok d =>
      rw [hcd, ok_bind] at h
      cases hcl : readCell r cl with
      | error e => rw [hcl, error_bind] at h; cases h
      | ok lv =>
        rw [hcl, ok_bind] at h
        cases hct : readCell r ct with
        | error e => rw [hct, error_bind] at h; cases h
        | ok tk =>
          rw [hct, ok_bind] at h
          by_cases hskip : (if progVal cp r ≠ [] then some (pyStrip (progVal cp r)) else none) ≠
              (if f ≠ [] then some (pyStrip f) else none)
          · rw [if_pos hskip] at h
            exact ih cnt (idx + 1) l h it hit
          · rw [if_neg hskip] at h
            by_cases hcond : d ≠ [] ∧ lv ≠ [] ∧ tk = []
            · rw [if_pos hcond] at h
              cases hget : pyDictGet prompts lv with
              | none =>
                rw [hget] at h
                exact ih cnt (idx + 1) l h it hit
              | some tmpl =>
                rw [hget] at h
                by_cases ht : tmpl = []
                · simp only [ht, ne_eq, not_true_eq_false, if_false, ite_false] at h
                  exact ih cnt (idx + 1) l h it hit
                · simp only [ne_eq, ht, not_false_eq_true, if_true, ite_true] at h
                  by_cases hbk : breakCond maxR (cnt + 1) = true
                  · rw [if_pos hbk] at h
                    simp only [pure_eq_ok, Except.ok.injEq] at h
                    subst h
                    rcases List.mem_cons.mp hit with h' | h'
                    · rw [h']; exact ht
                    · simp at h'
                  · rw [if_neg hbk] at h
                    cases hrec : scanFilter prompts cp cd cl ct f maxR (cnt + 1) (idx + 1) rest with
                    | error e => rw [hrec, error_bind] at h; cases h
                    | ok l' =>
                      rw [hrec, ok_bind] at h
                      simp only [pure_eq_ok, Except.ok.injEq] at h
                      subst h
                      rcases List.mem_cons.mp hit with h' | h'
                      · rw [h']; exact ht
                      · exact ih (cnt + 1) (idx + 1) l' hrec it h'
            · rw [if_neg hcond] at h
              exact ih cnt (idx + 1) l h it hit

/-- The dispatcher loop counts successes by the per-item predicate, and
every completion lands in exactly one of the two counters. -/
theorem runBatch_spec (gen : GenFn) (l : List WorkItem) :
    (runBatch gen l).1 = l.countP (fun t => itemSuccess gen t) ∧
    (runBatch gen l).1 + (runBatch gen l).2 = l.length := by
  induction l with
  | nil => simp [runBatch]
  | cons t rest ih =>
    obtain ⟨ih1, ih2⟩ := ih
    cases hg : gen t with
    | error e =>
      have hs : itemSuccess gen t = false := by simp [itemSuccess, hg]
      have hrb : runBatch gen (t :: rest) =
          ((runBatch gen rest).1, (runBatch gen rest).2 + 1) := by
        simp only [runBatch, hg]
      rw [hrb]
      constructor
      · simp [List.countP_cons, hs, ih1]
      · simp only [List.length_cons]; omega
    | ok o =>
      rcases o with ⟨tt, aa, err⟩
      by_cases htr : (truthyO tt && truthyO aa) = true
      · have hs : itemSuccess gen t = true := by simp [itemSuccess, hg, htr]
        have hrb : runBatch gen (t :: rest) =
            ((runBatch gen rest).1 + 1, (runBatch gen rest).2) := by
          simp only [runBatch, hg, htr, if_true, ite_true]
        rw [hrb]
        constructor
        · simp [List.countP_cons, hs, ih1]
        · simp only [List.length_cons]; omega
      · have hs : itemSuccess gen t = false := by
          simp only [itemSuccess, hg]
          simpa using htr
        have hrb : runBatch gen (t :: rest) =
            ((runBatch gen rest).1, (runBatch gen rest).2 + 1) := by
          simp only [runBatch, hg]
          rw [if_neg htr]
        rw [hrb]
        constructor
        · simp [List.countP_cons, hs, ih1]
        · simp only [List.length_cons]; omega

/-- With the three required columns resolved, the no-filter selector
returns the eligible items of the truncated row range. -/
theorem get_tasks_nofilter_ok (ws : Sheet) (csv : List (Str × Str)) (cd cl ct : Nat)
    (hD : colOf ws.header DISCIPLINE_LABEL = some cd)
    (hL : colOf ws.header LEVEL_LABEL = some cl)
    (hT : colOf ws.header TASK_LABEL = some ct)
    (maxR : Option Nat) :
    get_tasks_from_excel ws csv maxR none =
      .ok (eligItems (load_prompts csv) (colOf ws.header PROGRAM_LABEL) cd cl ct 2
            (truncRows maxR ws.rows),
        (colOf ws.header TASK_LABEL, colOf ws.header ANSWER_LABEL)) := by
  simp only [get_tasks_from_excel]
  rw [hD, hL, hT, scanNoFilter_ok, ok_bind, pure_eq_ok]

/-! ### Claim theorems -/

/-- Claim C9: for every dataset and prompt catalog, the standalone
eligible-row counter `count_total_tasks` returns exactly the length of the
list produced by `get_tasks_from_excel` with no limit and no program
filter; the two traversals also agree on the failure case. -/
theorem count_matches_selector (ws : Sheet) (csv : List (Str × Str)) :
    count_total_tasks ws csv =
      (get_tasks_from_excel ws csv none none).map (fun p => p.1.length) := by
  simp only [count_total_tasks, get_tasks_from_excel, truncRows]
  rw [countLoop_eq_scan (load_prompts csv) (colOf ws.header PROGRAM_LABEL)
    (colOf ws.header DISCIPLINE_LABEL) (colOf ws.header LEVEL_LABEL)
    (colOf ws.header TASK_LABEL) ws.rows 2]
  cases h : scanNoFilter (load_prompts csv) (colOf ws.header PROGRAM_LABEL)
      (colOf ws.header DISCIPLINE_LABEL) (colOf ws.header LEVEL_LABEL)
      (colOf ws.header TASK_LABEL) 2 ws.rows with
  | error e => rw [error_bind]; rfl
  | ok l => rw [ok_bind]; rfl

/-- Claim C6: parsing the raw response text "Problem text\nAnswer text",
which contains neither the task marker nor any answer marker, yields a
non-empty task and a non-empty answer via the degraded line-count split,
with no error. -/
theorem fallback_parse_split :
    parse_response ("Problem text\nAnswer text".toList) =
      (some ("Problem text".toList), some ("Answer text".toList), none) ∧
    ("Problem text".toList : Str) ≠ [] ∧ ("Answer text".toList : Str) ≠ [] := by
  decide

/-- Claim C3 (amended): the two branches of the Result invariant are
mutually exclusive — the exception path yields `(None, None, str(e))` and
the parse path always yields `error = None` with both texts present —
but the parse path may return an empty task or answer, so "never neither"
fails (see the counterexample). -/
theorem generation_result_exclusive (d l tmpl : Str)
    (api : Str → Except Str (List Str)) :
    (∀ e, api (buildFullPrompt tmpl d) = .error e →
      generate_deepseek d l tmpl api = (none, none, some e)) ∧
    (∀ chunks, api (buildFullPrompt tmpl d) = .ok chunks →
      ∃ t a, generate_deepseek d l tmpl api = (some t, some a, none)) ∧
    ¬(successOutcome (generate_deepseek d l tmpl api) = true ∧
      errorOutcome (generate_deepseek d l tmpl api) = true) := by
  refine ⟨?_, ?_, ?_⟩
  · intro e he
    unfold generate_deepseek
    rw [he]
  · intro chunks hc
    unfold generate_deepseek
    rw [hc]
    exact parse_response_shape _
  · rintro ⟨hs, he⟩
    unfold generate_deepseek at hs he
    cases hapi : api (buildFullPrompt tmpl d) with
    | error e =>
      rw [hapi] at hs
      simp [successOutcome, truthyO] at hs
    | ok chunks =>
      have he' : errorOutcome (parse_response (concatChunks chunks)) = true := by
        rw [hapi] at he
        exact he
      obtain ⟨t, a, hp⟩ := parse_response_shape (concatChunks chunks)
      rw [hp] at he'
      simp [errorOutcome, truthyO] at he'

/-- Counterexample to claim C3 as stated: parsing an empty response (no
exception raised) yields an empty task and an empty answer with no error,
so neither branch of the invariant holds. -/
theorem generation_result_neither_branch :
    successOutcome (generate_deepseek [] [] [] (fun _ => Except.ok [])) = false ∧
    errorOutcome (generate_deepseek [] [] [] (fun _ => Except.ok [])) = false ∧
    generate_deepseek [] [] [] (fun _ => Except.ok []) = (some [], some [], none) := by
  decide

/-- Witness for the amended claim C3 at a concrete failing call. -/
theorem generation_result_exclusive_witness :
    generate_deepseek [] [] [] (fun _ => Except.error ("boom".toList)) =
      (none, none, some ("boom".toList)) :=
  (generation_result_exclusive [] [] [] (fun _ => Except.error ("boom".toList))).1
    ("boom".toList) rfl

/-- Claim C4: over any completion order of the N dispatched work items,
the batch loop terminates with success = the number of items whose own
generate call returns a non-empty pair, success + error = N, and whether
one item succeeds depends only on its own generate call — a generate
function that fails (raises or returns an empty text) for some item k
leaves the success of every item ≠ k unchanged. -/
theorem dispatcher_counts (gen : GenFn) (items order : List WorkItem)
    (h : order.Perm items) :
    (runBatch gen order).1 = items.countP (fun t => itemSuccess gen t) ∧
    (runBatch gen order).1 + (runBatch gen order).2 = items.length ∧
    ∀ (gen' : GenFn) (k : WorkItem), (∀ t, t ≠ k → gen t = gen' t) →
      ∀ t, t ≠ k → itemSuccess gen t = itemSuccess gen' t := by
  obtain ⟨h1, h2⟩ := runBatch_spec gen order
  refine ⟨?_, ?_, ?_⟩
  · rw [h1]
    exact h.countP_eq _
  · rw [h2]
    exact h.length_eq
  · intro gen' k hk t ht
    unfold itemSuccess
    rw [hk t ht]

/-- Witness for claim C4: a two-item batch in which the generate call for
the first item raises still completes with success + error = 2. -/
theorem dispatcher_counts_witness :
    (runBatch genW [wiA, wiB]).1 + (runBatch genW [wiA, wiB]).2 =
      [wiA, wiB].length :=
  (dispatcher_counts genW [wiA, wiB] [wiA, wiB] (List.Perm.refl _)).2.1

/-- Claim C7 (amended): when the header row is missing one of the required
columns (discipline, level, or task) and the dataset has at least one data
row, the selector raises a `TypeError` (reading a cell with a `None`
column index) instead of returning an empty WorkItem list; the cells are
read before the program filter is applied, so this holds with and without
a filter and for every limit. -/
theorem missing_column_raises (ws : Sheet) (csv : List (Str × Str))
    (maxR : Option Nat) (filt : Option Str)
    (hmiss : colOf ws.header DISCIPLINE_LABEL = none ∨
      colOf ws.header LEVEL_LABEL = none ∨ colOf ws.header TASK_LABEL = none)
    (hrows : ws.rows ≠ []) :
    get_tasks_from_excel ws csv maxR filt = .error () := by
  obtain ⟨r, rest, hr⟩ := List.exists_cons_of_ne_nil hrows
  obtain ⟨rest', htr⟩ := truncRows_cons maxR r rest
  simp only [get_tasks_from_excel]
  split
  next f =>
    by_cases hf : f ≠ []
    · rw [if_pos hf, hr, scanFilter_error _ _ _ _ _ _ _ hmiss, error_bind]
    · rw [if_neg hf, hr, htr, scanNoFilter_error _ _ _ _ _ hmiss, error_bind]
  next =>
    rw [hr, htr, scanNoFilter_error _ _ _ _ _ hmiss, error_bind]

/-- Counterexample to claim C7 as stated: with the discipline column
missing and one data row, the selector raises instead of returning an
empty list. -/
theorem missing_column_raises_cex :
    get_tasks_from_excel fxSheet7 fxCsv none none = .error () := by
  decide

/-- Witness for the amended claim C7 at a concrete dataset missing the
level column. -/
theorem missing_column_raises_witness :
    get_tasks_from_excel fxSheet7b fxCsv (some 5) none = .error () :=
  missing_column_raises fxSheet7b fxCsv (some 5) none
    (Or.inr (Or.inl (by decide))) (by decide)

/-- Claim C8: for every known model key and non-negative exchange rate,
the cost estimate is `n` times the per-item cost in USD and that value
times the rate in RUB; it is non-decreasing in `n` and doubles when `n`
doubles, in both components.  Python's exact decimal float literals are
modelled as rationals. -/
theorem cost_linear_monotone (m : ModelKey) (r : ℚ) (hr : 0 ≤ r) (n : Nat) :
    calculate_cost n m r = ((n : ℚ) * MODEL_COSTS m, (n : ℚ) * MODEL_COSTS m * r) ∧
    (∀ n1 n2 : Nat, n1 ≤ n2 →
      (calculate_cost n1 m r).1 ≤ (calculate_cost n2 m r).1 ∧
      (calculate_cost n1 m r).2 ≤ (calculate_cost n2 m r).2) ∧
    calculate_cost (2 * n) m r =
      (2 * (calculate_cost n m r).1, 2 * (calculate_cost n m r).2) := by
  have hc : 0 ≤ MODEL_COSTS m := by
    cases m <;> unfold MODEL_COSTS <;> norm_num
  refine ⟨rfl, ?_, ?_⟩
  · intro n1 n2 hn
    have hcast : (n1 : ℚ) ≤ (n2 : ℚ) := Nat.cast_le.mpr hn
    exact ⟨mul_le_mul_of_nonneg_right hcast hc,
      mul_le_mul_of_nonneg_right (mul_le_mul_of_nonneg_right hcast hc) hr⟩
  · simp only [calculate_cost, Prod.mk.injEq]
    push_cast
    exact ⟨by ring, by ring⟩

/-- Witness for claim C8: doubling a concrete batch size doubles both
components of the estimate. -/
theorem cost_linear_monotone_witness :
    calculate_cost (2 * 5) ModelKey.deepseek 90 =
      (2 * (calculate_cost 5 ModelKey.deepseek 90).1,
       2 * (calculate_cost 5 ModelKey.deepseek 90).2) :=
  (cost_linear_monotone ModelKey.deepseek 90 (by norm_num) 5).2.2

/-- Claim C1: with no program filter and no limit, a WorkItem is produced
for a scanned data row (row index `2 + i`) iff its discipline cell is
non-empty, its level cell is non-empty, its task cell is empty, and its
level has a matching entry in the prompt catalog. -/
theorem selector_eligibility (ws : Sheet) (csv : List (Str × Str)) (cd cl ct : Nat)
    (hD : colOf ws.header DISCIPLINE_LABEL = some cd)
    (hL : colOf ws.header LEVEL_LABEL = some cl)
    (hT : colOf ws.header TASK_LABEL = some ct)
    (i : Nat) (hi : i < ws.rows.length) :
    ∃ items cols, get_tasks_from_excel ws csv none none = .ok (items, cols) ∧
      ((∃ it ∈ items, it.row = 2 + i) ↔
        (cellVal (ws.rows.getD i []) cd ≠ [] ∧ cellVal (ws.rows.getD i []) cl ≠ [] ∧
         cellVal (ws.rows.getD i []) ct = [] ∧
         (pyDictGet (load_prompts csv) (cellVal (ws.rows.getD i []) cl)).isSome)) := by
  refine ⟨eligItems (load_prompts csv) (colOf ws.header PROGRAM_LABEL) cd cl ct 2 ws.rows,
    (colOf ws.header TASK_LABEL, colOf ws.header ANSWER_LABEL),
    get_tasks_nofilter_ok ws csv cd cl ct hD hL hT none, ?_⟩
  constructor
  · rintro ⟨it, hmem, hrow⟩
    obtain ⟨j, hj, hej, hit⟩ :=
      (eligItems_mem (load_prompts csv) (colOf ws.header PROGRAM_LABEL) cd cl ct
        ws.rows 2 it).mp hmem
    have hrowj : it.row = 2 + j := by rw [hit]; rfl
    have hij : j = i := by omega
    subst hij
    have hej' := hej
    simp only [eligRow, Bool.and_eq_true, decide_eq_true_eq] at hej'
    obtain ⟨⟨h1, h2, h3⟩, h4⟩ := hej'
    refine ⟨h1, h2, h3, ?_⟩
    cases hget : pyDictGet (load_prompts csv) (cellVal (ws.rows.getD j []) cl) with
    | none => rw [hget] at h4; exact absurd h4 (by simp)
    | some v => simp
  · rintro ⟨h1, h2, h3, h4⟩
    obtain ⟨v, hv⟩ := Option.isSome_iff_exists.mp h4
    have hvne : v ≠ [] := load_prompts_get_ne hv
    have helig : eligRow (load_prompts csv) cd cl ct (ws.rows.getD i []) = true := by
      simp only [eligRow, Bool.and_eq_true, decide_eq_true_eq]
      refine ⟨⟨h1, h2, h3⟩, ?_⟩
      rw [hv]
      simpa using hvne
    exact ⟨mkItem (load_prompts csv) (colOf ws.header PROGRAM_LABEL) cd cl (2 + i)
        (ws.rows.getD i []),
      (eligItems_mem (load_prompts csv) (colOf ws.header PROGRAM_LABEL) cd cl ct
        ws.rows 2 _).mpr ⟨i, hi, helig, rfl⟩, rfl⟩

/-- Witness for claim C1 at a concrete one-row dataset whose single row is
eligible. -/
theorem selector_eligibility_witness :
    ∃ items cols, get_tasks_from_excel fxSheetA fxCsv none none = .ok (items, cols) ∧
      ((∃ it ∈ items, it.row = 2 + 0) ↔
        (cellVal (fxSheetA.rows.getD 0 []) 1 ≠ [] ∧ cellVal (fxSheetA.rows.getD 0 []) 2 ≠ [] ∧
         cellVal (fxSheetA.rows.getD 0 []) 3 = [] ∧
         (pyDictGet (load_prompts fxCsv) (cellVal (fxSheetA.rows.getD 0 []) 2)).isSome)) :=
  selector_eligibility fxSheetA fxCsv 1 2 3 (by decide) (by decide) (by decide) 0
    (by decide)

/-- Claim C2: with a program filter `f` and a truthy limit `L` not
exceeding the number of eligible rows matching the filter (program
equality compared after stripping both sides), the selector returns
exactly the first `L` items of the row-ordered filtered eligible list:
exactly `L` items, all matching the filter, in strictly increasing row
order, with no earlier eligible matching row omitted. -/
theorem selector_filter_completeness (ws : Sheet) (csv : List (Str × Str))
    (cd cl ct L : Nat) (f : Str)
    (hD : colOf ws.header DISCIPLINE_LABEL = some cd)
    (hL : colOf ws.header LEVEL_LABEL = some cl)
    (hT : colOf ws.header TASK_LABEL = some ct)
    (hf : f ≠ []) (hpos : 0 < L)
    (hcount : L ≤ (filtItems (load_prompts csv) (colOf ws.header PROGRAM_LABEL)
      cd cl ct f 2 ws.rows).length) :
    get_tasks_from_excel ws csv (some L) (some f) =
      .ok ((filtItems (load_prompts csv) (colOf ws.header PROGRAM_LABEL)
            cd cl ct f 2 ws.rows).take L,
        (colOf ws.header TASK_LABEL, colOf ws.header ANSWER_LABEL)) ∧
    ((filtItems (load_prompts csv) (colOf ws.header PROGRAM_LABEL)
        cd cl ct f 2 ws.rows).take L).length = L ∧
    (∀ it ∈ (filtItems (load_prompts csv) (colOf ws.header PROGRAM_LABEL)
        cd cl ct f 2 ws.rows).take L,
      it.program ≠ [] ∧ pyStrip it.program = pyStrip f) ∧
    List.Pairwise (fun a b => a.row < b.row)
      ((filtItems (load_prompts csv) (colOf ws.header PROGRAM_LABEL)
        cd cl ct f 2 ws.rows).take L) := by
  refine ⟨?_, ?_, ?_, ?_⟩
  · simp only [get_tasks_from_excel]
    rw [if_pos hf, hD, hL, hT,
      scanFilter_take (load_prompts csv) (colOf ws.header PROGRAM_LABEL) cd cl ct f L
        ws.rows 2 0 hpos, ok_bind, pure_eq_ok, Nat.sub_zero]
  · rw [List.length_take]
    exact Nat.min_eq_left hcount
  · intro it hit
    exact filtItems_program (load_prompts csv) (colOf ws.header PROGRAM_LABEL)
      cd cl ct hf ws.rows 2 it (List.take_subset _ _ hit)
  · exact (filtItems_pairwise (load_prompts csv) (colOf ws.header PROGRAM_LABEL)
      cd cl ct f ws.rows 2).sublist (List.take_sublist _ _)

/-- Witness for claim C2 at a concrete dataset with two eligible rows of
the same program (one tagged with surrounding spaces) and limit 1. -/
theorem selector_filter_completeness_witness :
    get_tasks_from_excel fxSheetP fxCsv (some 1) (some ("П1".toList)) =
      .ok ((filtItems (load_prompts fxCsv) (colOf fxSheetP.header PROGRAM_LABEL)
            2 3 4 ("П1".toList) 2 fxSheetP.rows).take 1,
        (colOf fxSheetP.header TASK_LABEL, colOf fxSheetP.header ANSWER_LABEL)) ∧
    ((filtItems (load_prompts fxCsv) (colOf fxSheetP.header PROGRAM_LABEL)
        2 3 4 ("П1".toList) 2 fxSheetP.rows).take 1).length = 1 ∧
    (∀ it ∈ (filtItems (load_prompts fxCsv) (colOf fxSheetP.header PROGRAM_LABEL)
        2 3 4 ("П1".toList) 2 fxSheetP.rows).take 1,
      it.program ≠ [] ∧ pyStrip it.program = pyStrip ("П1".toList)) ∧
    List.Pairwise (fun a b => a.row < b.row)
      ((filtItems (load_prompts fxCsv) (colOf fxSheetP.header PROGRAM_LABEL)
        2 3 4 ("П1".toList) 2 fxSheetP.rows).take 1) :=
  selector_filter_completeness fxSheetP fxCsv 2 3 4 1 ("П1".toList)
    (by decide) (by decide) (by decide) (by decide) (by decide) (by decide)

/-- Claim C5 (amended): with no program filter and a truthy limit `L`, the
selector scans only the first `L` data rows — not until `L` eligible items
are found — and returns the eligible rows among them; it returns exactly
`L` WorkItems iff the dataset has at least `L` data rows and every one of
the first `L` data rows is eligible.  A dataset with at least `L` eligible
rows can therefore yield fewer than `L` items (see the counterexample). -/
theorem selector_nofilter_take_limit (ws : Sheet) (csv : List (Str × Str))
    (cd cl ct L : Nat)
    (hD : colOf ws.header DISCIPLINE_LABEL = some cd)
    (hL : colOf ws.header LEVEL_LABEL = some cl)
    (hT : colOf ws.header TASK_LABEL = some ct)
    (hpos : 0 < L) :
    get_tasks_from_excel ws csv (some L) none =
      .ok (eligItems (load_prompts csv) (colOf ws.header PROGRAM_LABEL) cd cl ct 2
            (ws.rows.take L),
        (colOf ws.header TASK_LABEL, colOf ws.header ANSWER_LABEL)) ∧
    ((eligItems (load_prompts csv) (colOf ws.header PROGRAM_LABEL) cd cl ct 2
        (ws.rows.take L)).length = L ↔
      (L ≤ ws.rows.length ∧
        ∀ r ∈ ws.rows.take L, eligRow (load_prompts csv) cd cl ct r = true)) := by
  have htr : truncRows (some L) ws.rows = ws.rows.take L := by
    simp [truncRows, Nat.pos_iff_ne_zero.mp hpos]
  constructor
  · have h := get_tasks_nofilter_ok ws csv cd cl ct hD hL hT (some L)
    rw [htr] at h
    exact h
  · rw [eligItems_length]
    have hlen : (ws.rows.take L).length = min L ws.rows.length := List.length_take L _
    constructor
    · intro hcnt
      have hle : (ws.rows.take L).countP (eligRow (load_prompts csv) cd cl ct) ≤
          (ws.rows.take L).length := List.countP_le_length _
      have hLle : L ≤ ws.rows.length := by
        rw [hcnt, hlen] at hle
        exact le_trans hle (Nat.min_le_right _ _)
      refine ⟨hLle, ?_⟩
      have heq : (ws.rows.take L).countP (eligRow (load_prompts csv) cd cl ct) =
          (ws.rows.take L).length := by
        rw [hcnt, hlen, Nat.min_eq_left hLle]
      exact fun r hr => List.countP_eq_length.mp heq r hr
    · rintro ⟨hLle, hall⟩
      rw [List.countP_eq_length.mpr hall, hlen]
      exact Nat.min_eq_left hLle

/-- Counterexample to claim C5 as stated: a dataset with one ineligible
first row followed by an eligible row contains at least one eligible row,
yet the selector invoked with limit 1 returns no items, because the
no-filter branch caps the scanned rows at the limit instead of scanning
until enough eligible rows are found. -/
theorem selector_nofilter_undercount :
    eligRow (load_prompts fxCsv) 1 2 3 (fxSheetC.rows.getD 1 []) = true ∧
    1 ≤ fxSheetC.rows.length ∧
    get_tasks_from_excel fxSheetC fxCsv (some 1) none = .ok ([], (some 3, none)) := by
  decide

/-- Witness for the amended claim C5 at a concrete two-row dataset with
limit 2: only the eligible first row is returned, and the length-2
characterization fails because the second row is ineligible. -/
theorem selector_nofilter_take_limit_witness :
    get_tasks_from_excel fxSheetB fxCsv (some 2) none =
      .ok (eligItems (load_prompts fxCsv) (colOf fxSheetB.header PROGRAM_LABEL) 1 2 3 2
            (fxSheetB.rows.take 2),
        (colOf fxSheetB.header TASK_LABEL, colOf fxSheetB.header ANSWER_LABEL)) ∧
    ((eligItems (load_prompts fxCsv) (colOf fxSheetB.header PROGRAM_LABEL) 1 2 3 2
        (fxSheetB.rows.take 2)).length = 2 ↔
      (2 ≤ fxSheetB.rows.length ∧
        ∀ r ∈ fxSheetB.rows.take 2, eligRow (load_prompts fxCsv) 1 2 3 r = true)) :=
  selector_nofilter_take_limit fxSheetB fxCsv 1 2 3 2
    (by decide) (by decide) (by decide) (by decide)

/-- Claim C10: every entry of the loaded prompt catalog has a non-empty
(stripped) level key and non-empty template text, and consequently every
WorkItem the selector returns carries a non-empty prompt template. -/
theorem catalog_nonempty_prompts (csv : List (Str × Str)) :
    (∀ p ∈ load_prompts csv, p.1 ≠ [] ∧ p.2 ≠ []) ∧
    (∀ (ws : Sheet) (maxR : Option Nat) (filt : Option Str)
      (items : List WorkItem) (cols : Option Nat × Option Nat),
      get_tasks_from_excel ws csv maxR filt = .ok (items, cols) →
      ∀ it ∈ items, it.prompt ≠ []) := by
  refine ⟨fun p hp => load_prompts_mem p hp, ?_⟩
  intro ws maxR filt items cols h it hit
  simp only [get_tasks_from_excel] at h
  revert h
  split
  next f =>
    by_cases hf : f ≠ []
    · rw [if_pos hf]
      intro h
      cases hscan : scanFilter (load_prompts csv) (colOf ws.header PROGRAM_LABEL)
          (colOf ws.header DISCIPLINE_LABEL) (colOf ws.header LEVEL_LABEL)
          (colOf ws.header TASK_LABEL) f maxR 0 2 ws.rows with
      | error e => rw [hscan, error_bind] at h; cases h
      | ok l =>
        rw [hscan, ok_bind] at h
        simp only [pure_eq_ok, Except.ok.injEq, Prod.mk.injEq] at h
        obtain ⟨hitems, -⟩ := h
        subst hitems
        exact scanFilter_prompt (load_prompts csv) _ _ _ _ f maxR ws.rows 0 2 l
          hscan it hit
    · rw [if_neg hf]
      intro h
      cases hscan : scanNoFilter (load_prompts csv) (colOf ws.header PROGRAM_LABEL)
          (colOf ws.header DISCIPLINE_LABEL) (colOf ws.header LEVEL_LABEL)
          (colOf ws.header TASK_LABEL) 2 (truncRows maxR ws.rows) with
      | error e => rw [hscan, error_bind] at h; cases h
      | ok l =>
        rw [hscan, ok_bind] at h
        simp only [pure_eq_ok, Except.ok.injEq, Prod.mk.injEq] at h
        obtain ⟨hitems, -⟩ := h
        subst hitems
        exact scanNoFilter_prompt (load_prompts csv) _ _ _ _ (truncRows maxR ws.rows)
          2 l hscan it hit
  next =>
    intro h
    cases hscan : scanNoFilter (load_prompts csv) (colOf ws.header PROGRAM_LABEL)
        (colOf ws.header DISCIPLINE_LABEL) (colOf ws.header LEVEL_LABEL)
        (colOf ws.header TASK_LABEL) 2 (truncRows maxR ws.rows) with
    | error e => rw [hscan, error_bind] at h; cases h
    | ok l =>
      rw [hscan, ok_bind] at h
      simp only [pure_eq_ok, Except.ok.injEq, Prod.mk.injEq] at h
      obtain ⟨hitems, -⟩ := h
      subst hitems
      exact scanNoFilter_prompt (load_prompts csv) _ _ _ _ (truncRows maxR ws.rows)
        2 l hscan it hit

/-- Witness for claim C10 at the concrete one-row dataset: the returned
item's prompt template is non-empty. -/
theorem catalog_nonempty_prompts_witness :
    (⟨2, [], "Математика".toList, "Лёгкий".toList,
      "Сгенерируй простое задание".toList⟩ : WorkItem).prompt ≠ [] :=
  (catalog_nonempty_prompts fxCsv).2 fxSheetA none none
    [⟨2, [], "Математика".toList, "Лёгкий".toList, "Сгенерируй простое задание".toList⟩]
    (some 3, none) (by decide) _ (by simp)

end TaskGen
